import Mathlib

/-!
Shallow embedding of the collector-activity dashboard's data pipeline
(`src/dashboard_local.py`).

Strings are modelled as lists of characters (`Str`); a spreadsheet cell is
`Option Str`, with `none` standing for a missing value (pandas `NaN`).  A
parsed spreadsheet is a `Table`: a list of column labels and a list of rows,
each row a list of cells aligned with the columns.  The loading pipeline
`load_data_from_gdrive` (lines 30-89 of the source) is translated function
by function; every pandas row operation of the source becomes a per-row
Lean function, applied in the same order as in the source.  All
definitions are executable, so concrete runs evaluate by `decide`/`rfl`.
-/

namespace Dashboard

/-- Strings of the embedded program, as character lists (so that every
string operation is structurally recursive and kernel-evaluable). -/
abbrev Str := List Char

/-- Python `str.strip()`: remove leading and trailing whitespace. -/
def stripL (s : Str) : Str :=
  ((s.dropWhile Char.isWhitespace).reverse.dropWhile Char.isWhitespace).reverse

/-- Python `str.upper()` (ASCII, as used on the `Aging` labels). -/
def upperL (s : Str) : Str := s.map Char.toUpper

/-- Python `str.split(sep)` for a one-character separator:
`"a-b".split('-') = ["a","b"]`, `"".split('-') = [""]`. -/
def splitSep (sep : Char) : Str → List Str
  | [] => [[]]
  | c :: rest =>
    if c = sep then [] :: splitSep sep rest
    else
      match splitSep sep rest with
      | [] => [[c]]
      | h :: t => (c :: h) :: t

/-- Does `needle` occur at the start of `hay`? (Python `str.startswith`.) -/
def startsWith : Str → Str → Bool
  | [], _ => true
  | _ :: _, [] => false
  | a :: as, b :: bs => a = b && startsWith as bs

/-- Python `needle in hay` substring containment. -/
def containsSub (needle : Str) : Str → Bool
  | [] => needle.isEmpty
  | c :: rest => startsWith needle (c :: rest) || containsSub needle rest

/-- Python `link.split('/d/')`: split on the three-character separator
`"/d/"` (left-to-right, non-overlapping), as used by
`get_gdrive_download_url`. -/
def splitDSep : Str → List Str
  | '/' :: 'd' :: '/' :: rest => [] :: splitDSep rest
  | c :: rest =>
    match splitDSep rest with
    | [] => [[c]]
    | h :: t => (c :: h) :: t
  | [] => [[]]

/-- Numeric value of a digit string. -/
def natOfDigits (ds : Str) : Nat := ds.foldl (fun n c => n * 10 + (c.toNat - 48)) 0

/-- Parse a non-empty all-digit string as a natural number. -/
def parseNatAll (s : Str) : Option Nat :=
  if s.isEmpty then none
  else if s.all Char.isDigit then some (natOfDigits s) else none

/-- Python `str(cell)` on a cell that may be missing: pandas `astype(str)`
turns `NaN` into the string `"nan"`. -/
def cellToStr : Option Str → Str
  | none => "nan".data
  | some s => s

/-- Flatten a doubly-optional value. -/
def ojoin : Option (Option α) → Option α
  | some x => x
  | none => none

/-- A parsed timestamp (`pd.to_datetime` result, format `%d/%m/%Y %H:%M:%S`). -/
structure Timestamp where
  year : Nat
  month : Nat
  day : Nat
  hour : Nat
  minute : Nat
  second : Nat
deriving DecidableEq, Repr

/-- A calendar date (the `.dt.date` projection of a timestamp). -/
structure Date where
  year : Nat
  month : Nat
  day : Nat
deriving DecidableEq, Repr

/-- Gregorian leap-year rule (needed for day-of-month validation). -/
def isLeap (y : Nat) : Bool := (y % 4 = 0 && y % 100 ≠ 0) || y % 400 = 0

/-- Number of days in a month. -/
def daysInMonth (y m : Nat) : Nat :=
  if m = 2 then (if isLeap y then 29 else 28)
  else if m = 4 || m = 6 || m = 9 || m = 11 then 30 else 31

/-- `pd.to_datetime(s, format='%d/%m/%Y %H:%M:%S', errors='coerce')` on one
cell: strict day/month/year hour:minute:second parse, `none` (`NaT`) when
the text does not match the format or is not a valid calendar date-time. -/
def parseTimestamp (s : Str) : Option Timestamp :=
  match splitSep ' ' s with
  | [dmy, hms] =>
    match splitSep '/' dmy, splitSep ':' hms with
    | [d, m, y], [h, mi, se] =>
      match parseNatAll d, parseNatAll m, parseNatAll y,
            parseNatAll h, parseNatAll mi, parseNatAll se with
      | some dv, some mv, some yv, some hv, some miv, some sev =>
        if 1 ≤ mv ∧ mv ≤ 12 ∧ 1 ≤ dv ∧ dv ≤ daysInMonth yv mv ∧
           hv ≤ 23 ∧ miv ≤ 59 ∧ sev ≤ 59 then
          some ⟨yv, mv, dv, hv, miv, sev⟩
        else none
      | _, _, _, _, _, _ => none
    | _, _ => none
  | _ => none

/-- `Create Time.dt.date` (source line 77). -/
def dateOf (t : Timestamp) : Date := ⟨t.year, t.month, t.day⟩

/-- A parsed spreadsheet: column labels plus rows of cells.  Each row's
cells are positional, aligned with `cols`. -/
structure Table where
  cols : List Str
  rows : List (List (Option Str))
deriving DecidableEq

/-- Index of a column label (leftmost match), `none` when absent. -/
def colIdx (cols : List Str) (c : Str) : Option Nat :=
  match cols with
  | [] => none
  | c0 :: rest => if c0 = c then some 0 else (colIdx rest c).map (· + 1)

/-- The cell of `row` under column label `c` (missing column or missing
cell gives `none`). -/
def getCell (cols : List Str) (row : List (Option Str)) (c : Str) : Option Str :=
  match colIdx cols c with
  | some i => ojoin (row.get? i)
  | none => none

/-- `pd.Series.to_dict()` lookup after `set_index`: the last pair whose
key matches wins, `none` when the key is absent. -/
def dictGet (pairs : List (Str × Option Str)) (k : Str) : Option (Option Str) :=
  (pairs.reverse.find? (fun p => p.1 = k)).map Prod.snd

/-- The six required activity-table columns (source line 56). -/
def requiredCols : List Str :=
  ["Collector".data, "Create Time".data, "Neg Pos Unit".data,
   "Aging".data, "Contact Summary".data, "Customer Name".data]

/-- The roster data extracted by lines 44-51 and 80 of the source:
the stripped ID strings, the ID → `Agent Name` and ID → `Group` lookup
dictionaries, and the transformed roster table that the function returns. -/
structure RosterCtx where
  ids : List Str
  nameMap : List (Str × Option Str)
  groupMap : List (Str × Option Str)
  table : Table
deriving DecidableEq

/-- Lines 44-51 (and the line-80 `Group` lookup) of the source: strip the
roster's column labels, stringify and strip the `ID` column, apply the
`Collector` → `Agent Name` header alias, and build the two lookup
dictionaries.  A missing `ID`, `Agent Name` (post-alias) or `Group`
column raises a `KeyError` in the source, which the boundary handler
turns into the no-data result: here `none`. -/
def processRoster (g : Table) : Option RosterCtx :=
  match colIdx (g.cols.map stripL) "ID".data with
  | none => none
  | some i =>
    let cols := g.cols.map stripL
    let cols2 := if cols.contains "Collector".data && !(cols.contains "Agent Name".data)
      then cols.map (fun c => if c = "Collector".data then "Agent Name".data else c)
      else cols
    if "Agent Name".data ∈ cols2 then
      if "Group".data ∈ cols2 then
        let rows2 := g.rows.map (fun r => r.set i (some (stripL (cellToStr (ojoin (r.get? i))))))
        some { ids := rows2.map (fun r => cellToStr (ojoin (r.get? i)))
               nameMap := rows2.map (fun r => (cellToStr (ojoin (r.get? i)), getCell cols2 r "Agent Name".data))
               groupMap := rows2.map (fun r => (cellToStr (ojoin (r.get? i)), getCell cols2 r "Group".data))
               table := ⟨cols2, rows2⟩ }
      else none
    else none

/-- Lines 64-66 of the source: trim the raw collector field, split on
`'-'`, take the first piece, trim again. -/
def deriveCollectorId (raw : Str) : Str :=
  stripL ((splitSep '-' (stripL raw)).headD [])

/-- Line 69 of the source: the roster anti-join mask — a row is kept iff
its derived collector id is one of the roster's `ID` values. -/
def rosterAntiJoinKeeps (ids : List Str) (collectorRaw : Str) : Bool :=
  decide (deriveCollectorId collectorRaw ∈ ids)

/-- One normalized activity record (a row of the `visit_logs` table that
`load_data_from_gdrive` returns). -/
structure VisitRecord where
  collector : Str
  collectorId : Str
  createTime : Timestamp
  date : Date
  collectorName : Option Str
  group : Option Str
  agingBucket : Str
  negPosUnit : Str
  contactSummary : Option Str
  customerName : Option Str
deriving DecidableEq

/-- The per-row portion of lines 63-83 of the source, in source order:
drop the row when `Create Time`, `Collector` or `Aging` is missing
(line 63); derive the collector id (64-66); anti-join against the roster
ids (69); stringify `Neg Pos Unit` and drop the row when its trimmed
value is exactly `"CancelRepossession"` (71-73); parse the timestamp,
dropping the row on failure (75-76); derive the date (77); look up name
and group (79-81); trim and uppercase `Aging` (83). -/
def processRow (ctx : RosterCtx) (cols : List Str) (row : List (Option Str)) :
    Option VisitRecord :=
  match getCell cols row "Create Time".data, getCell cols row "Collector".data,
        getCell cols row "Aging".data with
  | some ctRaw, some colRaw, some agRaw =>
    if rosterAntiJoinKeeps ctx.ids colRaw then
      if stripL (cellToStr (getCell cols row "Neg Pos Unit".data)) = "CancelRepossession".data
      then none
      else
        match parseTimestamp ctRaw with
        | none => none
        | some ts =>
          some { collector := stripL colRaw
                 collectorId := deriveCollectorId colRaw
                 createTime := ts
                 date := dateOf ts
                 collectorName := ojoin (dictGet ctx.nameMap (deriveCollectorId colRaw))
                 group := ojoin (dictGet ctx.groupMap (deriveCollectorId colRaw))
                 agingBucket := upperL (stripL agRaw)
                 negPosUnit := cellToStr (getCell cols row "Neg Pos Unit".data)
                 contactSummary := getCell cols row "Contact Summary".data
                 customerName := getCell cols row "Customer Name".data }
    else none
  | _, _, _ => none

/-- Lines 53-83 of the source: strip the activity table's column labels,
fail (no partial result) unless all six required columns are present
(lines 56-59), then normalize the surviving rows. -/
def processVisit (ctx : RosterCtx) (v : Table) : Option (List VisitRecord) :=
  if ∀ c ∈ requiredCols, c ∈ v.cols.map stripL then
    some (v.rows.filterMap (processRow ctx (v.cols.map stripL)))
  else none

/-- The body of `load_data_from_gdrive` after URL resolution (lines
43-89).  The two arguments are the fetched-and-parsed tables; `none`
stands for an exception raised during the network fetch or the Excel
parse, which the `except` handler at lines 87-89 turns into the
`(None, None)` result.  The roster is processed first (lines 44-51), as
in the source. -/
def loadTables (visit group : Option Table) : Option (List VisitRecord × Table) :=
  group.bind (fun g =>
    (processRoster g).bind (fun ctx =>
      visit.bind (fun v =>
        (processVisit ctx v).map (fun recs => (recs, ctx.table)))))

/-- `get_gdrive_download_url` (lines 16-27): recognize the two sharing
link shapes by substring markers, extract the file id between `/d/` and
the next `/`, and build the direct-download address; an unrecognized
link yields `none` after the user-facing warning. -/
def get_gdrive_download_url (shareLink : Str) : Option Str :=
  if containsSub "spreadsheets/d/".data shareLink then
    some ("https://docs.google.com/spreadsheets/d/".data ++
      (splitSep '/' ((splitDSep shareLink).getD 1 [])).headD [] ++
      "/export?format=xlsx".data)
  else if containsSub "file/d/".data shareLink then
    some ("https://drive.google.com/uc?export=download&id=".data ++
      (splitSep '/' ((splitDSep shareLink).getD 1 [])).headD [])
  else none

/-- `load_data_from_gdrive` (lines 30-89): resolve both sharing links —
if either fails to resolve, return the no-data pair (lines 40-41) —
then load and normalize the two tables.  `visitFetch`/`groupFetch` are
the fetch-and-parse results for the two resolved addresses (`none` for
an exception). -/
def load_data_from_gdrive (visitUrl groupUrl : Str)
    (visitFetch groupFetch : Option Table) : Option (List VisitRecord × Table) :=
  match get_gdrive_download_url visitUrl, get_gdrive_download_url groupUrl with
  | some _, some _ => loadTables visitFetch groupFetch
  | _, _ => none

/-- `value_counts()` over the `Aging` column (lines 324-325 / 412-413):
distinct values with their multiplicities, ordered by descending count
(ties in first-appearance order). -/
def valueCounts (xs : List Str) : List (Str × Nat) :=
  List.insertionSort (fun a b => b.2 ≤ a.2)
    ((xs.foldl (fun acc x => if x ∈ acc then acc else acc ++ [x]) []).map
      (fun v => (v, xs.count v)))

/-- `str.extract('(\d+)')`: the first maximal run of digits in a label. -/
def firstDigitRun : Str → Str
  | [] => []
  | c :: rest => if c.isDigit then (c :: rest).takeWhile Char.isDigit else firstDigitRun rest

/-- The `AgingSort` key (lines 326 / 388 / 416): the first digit run of
the bucket label as a number, `0` when the label has no digits
(`fillna(0)`). -/
def agingSortKey (s : Str) : Nat :=
  match parseNatAll (firstDigitRun s) with
  | some n => n
  | none => 0

/-- Comparison of bucket rows by their `AgingSort` key. -/
def bucketLE {α : Type} (a b : Str × α) : Prop :=
  agingSortKey a.1 ≤ agingSortKey b.1

instance {α : Type} : DecidableRel (@bucketLE α) :=
  fun a b => Nat.decLe (agingSortKey a.1) (agingSortKey b.1)

instance {α : Type} : IsTotal (Str × α) bucketLE :=
  ⟨fun a b => Nat.le_total (agingSortKey a.1) (agingSortKey b.1)⟩

instance {α : Type} : IsTrans (Str × α) bucketLE :=
  ⟨fun _ _ _ hab hbc => Nat.le_trans hab hbc⟩

/-- `sort_values('AgingSort')` (lines 327 / 389 / 417). -/
def sortByAging {α : Type} (l : List (Str × α)) : List (Str × α) :=
  List.insertionSort bucketLE l

/-- The per-aging-bucket count sequence of tab 2 (lines 324-327):
`value_counts` ordered ascending by the extracted numeric key. -/
def countByAgingBucket (agings : List Str) : List (Str × Nat) :=
  sortByAging (valueCounts agings)

/-- The tab-3 comparison-group averaging (lines 403-417): with an empty
comparison group the view only shows the pick-at-least-one notice and no
averages are computed (modelled as `none`); otherwise every bucket's raw
count is divided by the group size and the rows are ordered by the aging
key as in `countByAgingBucket`. -/
def averageByAgingBucket (agings : List Str) (comparisonCollectors : List Str) :
    Option (List (Str × ℚ)) :=
  if comparisonCollectors.isEmpty then none
  else some (sortByAging ((valueCounts agings).map
    (fun p => (p.1, (p.2 : ℚ) / (comparisonCollectors.length : ℚ)))))

/-- A color produced by `get_heatmap_color`: either the fixed hex
constant for empty days or an `hsl(hue, sat%, lightness%)` triple. -/
inductive HeatColor where
  | hex (code : Str)
  | hsl (hue sat light : ℚ)
deriving DecidableEq

/-- `get_heatmap_color` (lines 139-145): the empty tier for count 0,
otherwise hue 220 / saturation 80% with lightness decreasing from 95
toward 40 as the count approaches the maximum (`max_count or 1` guards
the zero denominator). -/
def get_heatmap_color (count maxCount : Nat) : HeatColor :=
  if count = 0 then HeatColor.hex "#F3F4F6".data
  else
    HeatColor.hsl 220 80
      (95 - ((count : ℚ) / (((if maxCount = 0 then 1 else maxCount) : Nat) : ℚ)
        * (9 / 10) + 1 / 10) * 55)

/-- The roster `ID` values a loaded activity record is validated against
(`groups_df['ID']`, line 68 of the source). -/
def rosterIds (g : Table) : List Str :=
  match processRoster g with
  | some ctx => ctx.ids
  | none => []

/-! ### Example and counterexample inputs -/

/-- The spec's worked-example roster: one agent, id `101`, name
`A-Smith`, team `T1`. -/
def exRoster : Table :=
  ⟨["ID".data, "Agent Name".data, "Group".data],
   [[some "101".data, some "A-Smith".data, some "T1".data]]⟩

/-- The spec's worked-example activity table: a single well-formed row. -/
def exVisit : Table :=
  ⟨requiredCols,
   [[some "101-A-Smith".data, some "01/06/2024 09:00:00".data, some "Visit".data,
     some "m3".data, some "ok".data, some "Cust1".data]]⟩

/-- The single normalized record that the worked example produces. -/
def exRec : VisitRecord :=
  { collector := "101-A-Smith".data
    collectorId := "101".data
    createTime := ⟨2024, 6, 1, 9, 0, 0⟩
    date := ⟨2024, 6, 1⟩
    collectorName := some "A-Smith".data
    group := some "T1".data
    agingBucket := "M3".data
    negPosUnit := "Visit".data
    contactSummary := some "ok".data
    customerName := some "Cust1".data }

/-- The roster table as `load_data_from_gdrive` returns it for `exRoster`
(identical: labels and the `ID` value are already trimmed). -/
def exRosterOut : Table := exRoster

/-- An activity table whose one row has a whitespace-only (but not
missing) `Aging` cell. -/
def cexAgingVisit : Table :=
  ⟨requiredCols,
   [[some "101-A-Smith".data, some "01/06/2024 09:00:00".data, some "Visit".data,
     some " ".data, some "ok".data, none]]⟩

/-- An activity table whose one row carries the exclusion sentinel in
lower case. -/
def cexCaseVisit : Table :=
  ⟨requiredCols,
   [[some "101-A-Smith".data, some "01/06/2024 09:00:00".data,
     some "cancelrepossession".data, some "m3".data, some "ok".data, some "c".data]]⟩

/-- An activity table with no columns at all (so every required column is
missing). -/
def cexNoColsVisit : Table := ⟨[], []⟩

/-! ### Helper lemmas -/

theorem dropWhile_head_false {p : Char → Bool} :
    ∀ {l : Str} {c : Char} {rest : Str}, l.dropWhile p = c :: rest → p c = false := by
  intro l
  induction l with
  | nil => intro c rest h; simp [List.dropWhile] at h
  | cons a t ih =>
    intro c rest h
    rw [List.dropWhile_cons] at h
    by_cases ha : p a = true
    · rw [if_pos ha] at h; exact ih h
    · rw [if_neg ha] at h
      cases h
      exact Bool.eq_false_iff.mpr ha

theorem dropWhile_no_op {p : Char → Bool} {l : Str}
    (h : ∀ c rest, l = c :: rest → p c = false) : l.dropWhile p = l := by
  cases l with
  | nil => rfl
  | cons c rest => rw [List.dropWhile_cons, h c rest rfl]; simp

theorem stripL_no_op {l : Str}
    (h1 : ∀ c rest, l = c :: rest → Char.isWhitespace c = false)
    (h2 : ∀ c rest, l.reverse = c :: rest → Char.isWhitespace c = false) :
    stripL l = l := by
  unfold stripL
  rw [dropWhile_no_op h1, dropWhile_no_op h2, List.reverse_reverse]

theorem stripL_idem (s : Str) : stripL (stripL s) = stripL s := by
  apply stripL_no_op
  · intro c rest h
    have hpre : stripL s <+: s.dropWhile Char.isWhitespace := by
      apply List.reverse_suffix.mp
      rw [stripL, List.reverse_reverse]
      exact List.dropWhile_suffix _
    obtain ⟨u, hu⟩ := hpre
    rw [h] at hu
    exact dropWhile_head_false hu.symm
  · intro c rest h
    rw [stripL, List.reverse_reverse] at h
    exact dropWhile_head_false h

theorem splitSep_of_not_mem {sep : Char} :
    ∀ {cs : Str}, sep ∉ cs → splitSep sep cs = [cs] := by
  intro cs
  induction cs with
  | nil => intro _; rfl
  | cons c rest ih =>
    intro h
    have hc : ¬ c = sep := fun e => h (e ▸ List.mem_cons_self c rest)
    have hrest : sep ∉ rest := fun hm => h (List.mem_cons_of_mem c hm)
    rw [splitSep, if_neg hc, ih hrest]

theorem colIdx_eq_none {cols : List Str} {c : Str} (h : c ∉ cols) :
    colIdx cols c = none := by
  induction cols with
  | nil => rfl
  | cons c0 rest ih =>
    have hc0 : ¬ c0 = c := fun e => h (e ▸ List.mem_cons_self c0 rest)
    rw [colIdx, if_neg hc0, ih (fun hm => h (List.mem_cons_of_mem c0 hm))]
    rfl

theorem mem_sortByAging {α : Type} {l : List (Str × α)} {p : Str × α} :
    p ∈ sortByAging l ↔ p ∈ l :=
  (List.perm_insertionSort bucketLE l).mem_iff

theorem mem_valueCounts {xs : List Str} {p : Str × Nat} (h : p ∈ valueCounts xs) :
    p.2 = xs.count p.1 := by
  unfold valueCounts at h
  rw [(List.perm_insertionSort _ _).mem_iff] at h
  obtain ⟨v, _, he⟩ := List.mem_map.mp h
  rw [← he]

theorem firstDigitRun_of_no_digit {s : Str} (h : ∀ c ∈ s, c.isDigit = false) :
    firstDigitRun s = [] := by
  induction s with
  | nil => rfl
  | cons c rest ih =>
    have hc := h c (List.mem_cons_self c rest)
    rw [firstDigitRun, if_neg (by simp [hc])]
    exact ih (fun x hx => h x (List.mem_cons_of_mem c hx))

/-- Everything `processRow` guarantees about a row it keeps: the derived
id passed the roster anti-join, the timestamp is a successfully parsed
value and the stored date is its calendar-date projection, the aging
bucket is the trimmed-and-uppercased raw label, and the trimmed
stringified unit type differs from the exclusion sentinel. -/
theorem processRow_spec {ctx : RosterCtx} {cols : List Str} {row : List (Option Str)}
    {rec : VisitRecord} (h : processRow ctx cols row = some rec) :
    rec.collectorId ∈ ctx.ids ∧
    (∃ raw, parseTimestamp raw = some rec.createTime) ∧
    rec.date = dateOf rec.createTime ∧
    (∃ ag, getCell cols row "Aging".data = some ag ∧
      rec.agingBucket = upperL (stripL ag)) ∧
    stripL rec.negPosUnit ≠ "CancelRepossession".data := by
  unfold processRow at h
  split at h
  case h_2 => exact absurd h (by simp)
  case h_1 ctRaw colRaw agRaw heq1 heq2 heq3 =>
    split at h
    case isFalse => exact absurd h (by simp)
    case isTrue hkeep =>
      split at h
      case isTrue => exact absurd h (by simp)
      case isFalse hsent =>
        split at h
        case h_1 => exact absurd h (by simp)
        case h_2 ts hts =>
          injection h with h
          subst h
          refine ⟨?_, ⟨ctRaw, hts⟩, rfl, ⟨agRaw, heq3, rfl⟩, hsent⟩
          exact of_decide_eq_true hkeep

/-- Every record of a successful load arises from `processRow` over one
of the raw activity rows, for the roster context that `processRoster`
produced. -/
theorem mem_loadTables {v g : Table} {recs : List VisitRecord} {tbl : Table}
    {rec : VisitRecord}
    (h : loadTables (some v) (some g) = some (recs, tbl)) (hm : rec ∈ recs) :
    ∃ ctx, processRoster g = some ctx ∧ rosterIds g = ctx.ids ∧
      ∃ row ∈ v.rows, processRow ctx (v.cols.map stripL) row = some rec := by
  unfold loadTables at h
  simp only [Option.some_bind] at h
  cases hg : processRoster g with
  | none => rw [hg] at h; exact absurd h (by simp)
  | some ctx =>
    rw [hg] at h
    simp only [Option.some_bind] at h
    cases hv : processVisit ctx v with
    | none => rw [hv] at h; exact absurd h (by simp)
    | some recs2 =>
      rw [hv] at h
      simp only [Option.map_some'] at h
      injection h with h
      injection h with h1 h2
      subst h1
      unfold processVisit at hv
      split at hv
      case isFalse => exact absurd hv (by simp)
      case isTrue hall =>
        injection hv with hv
        subst hv
        obtain ⟨row, hrow, hpr⟩ := List.mem_filterMap.mp hm
        exact ⟨ctx, rfl, by unfold rosterIds; rw [hg], row, hrow, hpr⟩

/-! ### Claim theorems -/

/-- C1 (amended): every record of the normalized activity table has a
derived agent id that is one of the roster's `ID` values, a timestamp
that is a successfully parsed (never defaulted) value whose calendar
date is the stored `date`, and an aging bucket equal to the trimmed,
uppercased raw `Aging` cell.  (The raw cell is necessarily present —
null `Aging` rows are dropped — but a whitespace-only cell survives and
yields an empty bucket, so non-emptiness does not hold; see the
counterexample.) -/
theorem loaded_record_invariants (v g : Table) (recs : List VisitRecord) (tbl : Table)
    (rec : VisitRecord) (h : loadTables (some v) (some g) = some (recs, tbl))
    (hm : rec ∈ recs) :
    rec.collectorId ∈ rosterIds g ∧
    (∃ raw, parseTimestamp raw = some rec.createTime) ∧
    rec.date = dateOf rec.createTime ∧
    (∃ ag, rec.agingBucket = upperL (stripL ag)) := by
  obtain ⟨ctx, hg, hids, row, hrow, hpr⟩ := mem_loadTables h hm
  obtain ⟨h1, h2, h3, ⟨ag, _, hag⟩, _⟩ := processRow_spec hpr
  refine ⟨?_, h2, h3, ⟨ag, hag⟩⟩
  rw [hids]
  exact h1

/-- C1 witness: the invariants instantiated on the worked example's
single record. -/
theorem loaded_record_invariants_witness :
    exRec.collectorId ∈ rosterIds exRoster ∧
    (∃ raw, parseTimestamp raw = some exRec.createTime) ∧
    exRec.date = dateOf exRec.createTime ∧
    (∃ ag, exRec.agingBucket = upperL (stripL ag)) :=
  loaded_record_invariants exVisit exRoster [exRec] exRosterOut exRec (by decide)
    (List.mem_singleton.mpr rfl)

/-- C1 counterexample: a whitespace-only (non-null) `Aging` cell is not
dropped; it is carried through as the empty aging bucket, so the claim's
"non-empty ... raw blanks having been dropped" fails on the code. -/
theorem aging_whitespace_survives :
    (loadTables (some cexAgingVisit) (some exRoster)).map
      (fun p => p.1.map (fun r => r.agingBucket)) = some [[]] := by decide

/-- C2 (amended): the unit-type exclusion is an exact, case-sensitive
comparison of the stringified, trimmed `Neg Pos Unit` value against
`"CancelRepossession"`: every retained record's trimmed unit type
differs from the sentinel in that exact spelling, but other casings are
not excluded (see the counterexample). -/
theorem sentinel_exact_match_excluded (v g : Table) (recs : List VisitRecord)
    (tbl : Table) (rec : VisitRecord)
    (h : loadTables (some v) (some g) = some (recs, tbl)) (hm : rec ∈ recs) :
    stripL rec.negPosUnit ≠ "CancelRepossession".data := by
  obtain ⟨ctx, hg, hids, row, hrow, hpr⟩ := mem_loadTables h hm
  exact (processRow_spec hpr).2.2.2.2

/-- C2 witness: the exclusion guarantee instantiated on the worked
example's record. -/
theorem sentinel_exact_match_excluded_witness :
    stripL exRec.negPosUnit ≠ "CancelRepossession".data :=
  sentinel_exact_match_excluded exVisit exRoster [exRec] exRosterOut exRec (by decide)
    (List.mem_singleton.mpr rfl)

/-- C2 counterexample: a row whose unit type is the sentinel in lower
case (`"cancelrepossession"`) is retained, not excluded — the filter at
source line 73 is case-sensitive. -/
theorem sentinel_lowercase_retained :
    (loadTables (some cexCaseVisit) (some exRoster)).map
      (fun p => p.1.map (fun r => r.negPosUnit)) =
    some ["cancelrepossession".data] := by decide

/-- C3: on the spec's worked example — roster id `101`, name `A-Smith`,
team `T1`; one activity row with collector `101-A-Smith`, create time
`01/06/2024 09:00:00`, unit `Visit`, aging `m3` — the load produces
exactly one normalized record, with agent id `101`, aging bucket `M3`,
date 2024-06-01 and team `T1`. -/
theorem worked_example_normalization :
    loadTables (some exVisit) (some exRoster) = some ([exRec], exRosterOut) ∧
    exRec.collectorId = "101".data ∧ exRec.agingBucket = "M3".data ∧
    exRec.date = ⟨2024, 6, 1⟩ ∧ exRec.group = some "T1".data := by decide

/-- C4: with an empty comparison group the averaging step signals the
pick-at-least-one condition and computes no averages (`none`); with a
non-empty group of size N, every returned average is exactly that
bucket's raw record count divided by N. -/
theorem averageByAgingBucket_spec (agings comps : List Str) (b : Str) (a : ℚ)
    (hne : comps ≠ [])
    (hmem : (b, a) ∈ (averageByAgingBucket agings comps).getD []) :
    averageByAgingBucket agings [] = none ∧
    a = ((agings.count b : Nat) : ℚ) / ((comps.length : Nat) : ℚ) := by
  refine ⟨rfl, ?_⟩
  obtain ⟨c0, cs, rfl⟩ : ∃ c0 cs, comps = c0 :: cs := by
    cases comps
    · exact absurd rfl hne
    · exact ⟨_, _, rfl⟩
  unfold averageByAgingBucket at hmem
  simp only [List.isEmpty_cons, Bool.false_eq_true, if_false, Option.getD_some] at hmem
  rw [mem_sortByAging] at hmem
  obtain ⟨p, hp, he⟩ := List.mem_map.mp hmem
  have hcount := mem_valueCounts hp
  injection he with he1 he2
  subst he1
  subst he2
  rw [hcount]

/-- C4 witness: two `M2` records averaged over a one-agent comparison
group. -/
theorem averageByAgingBucket_spec_witness :
    averageByAgingBucket ["M2".data, "M2".data] [] = none ∧
    ((2 : ℕ) : ℚ) / ((1 : ℕ) : ℚ) =
      ((["M2".data, "M2".data].count "M2".data : Nat) : ℚ) /
        (((["X".data] : List Str).length : Nat) : ℚ) :=
  averageByAgingBucket_spec ["M2".data, "M2".data] ["X".data] "M2".data
    (((2 : ℕ) : ℚ) / ((1 : ℕ) : ℚ)) (by decide) (List.mem_singleton.mpr rfl)

/-- C5: a missing `ID` column in the roster table, or any missing
required column in the activity table, makes the load fail with the
no-data result — never a partial table. -/
theorem schema_missing_column_fails (v g : Table)
    (h : "ID".data ∉ g.cols.map stripL ∨ ∃ c ∈ requiredCols, c ∉ v.cols.map stripL) :
    loadTables (some v) (some g) = none := by
  rcases h with hID | ⟨c, hcr, hcv⟩
  · have hg : processRoster g = none := by
      unfold processRoster
      rw [colIdx_eq_none hID]
    unfold loadTables
    simp [hg]
  · cases hg : processRoster g with
    | none => unfold loadTables; simp [hg]
    | some ctx =>
      have hv : processVisit ctx v = none := by
        unfold processVisit
        rw [if_neg (fun hall => hcv (hall c hcr))]
      unfold loadTables
      simp [hg, hv]

/-- C5 witness: an activity table with no columns fails the schema
check. -/
theorem schema_missing_column_fails_witness :
    loadTables (some cexNoColsVisit) (some exRoster) = none :=
  schema_missing_column_fails cexNoColsVisit exRoster
    (Or.inr ⟨"Collector".data, by decide, by decide⟩)

/-- C6: the per-aging-bucket count sequence is sorted ascending by the
numeric key extracted from each bucket label (the first digit run), and
a label containing no digits gets key 0, sorting first. -/
theorem countByAgingBucket_sorted (agings : List Str) (s : Str)
    (hnd : ∀ c ∈ s, c.isDigit = false) :
    List.Sorted bucketLE (countByAgingBucket agings) ∧ agingSortKey s = 0 := by
  constructor
  · exact List.sorted_insertionSort bucketLE (valueCounts agings)
  · unfold agingSortKey
    rw [firstDigitRun_of_no_digit hnd]
    rfl

/-- C6 witness: a concrete two-bucket count sequence and a digit-free
label. -/
theorem countByAgingBucket_sorted_witness :
    List.Sorted bucketLE (countByAgingBucket ["M3".data, "M2".data]) ∧
    agingSortKey "ABC".data = 0 :=
  countByAgingBucket_sorted ["M3".data, "M2".data] "ABC".data (by decide)

/-- C7: an exception during the fetch or parse of either source (the
`none` fetch results) makes `load_data_from_gdrive` return the explicit
no-data pair — a load failure is all-or-nothing for the (visit, roster)
source pair. -/
theorem load_failure_all_or_nothing (visitUrl groupUrl : Str)
    (visitFetch groupFetch : Option Table)
    (h : visitFetch = none ∨ groupFetch = none) :
    load_data_from_gdrive visitUrl groupUrl visitFetch groupFetch = none := by
  have hlt : loadTables visitFetch groupFetch = none := by
    rcases h with rfl | rfl
    · cases groupFetch with
      | none => rfl
      | some g =>
        unfold loadTables
        cases hg : processRoster g <;> simp [hg]
    · rfl
  unfold load_data_from_gdrive
  cases get_gdrive_download_url visitUrl <;>
    cases get_gdrive_download_url groupUrl <;> simp [hlt]

/-- C7 witness: both fetches failing yields the no-data pair. -/
theorem load_failure_all_or_nothing_witness :
    load_data_from_gdrive "u".data "v".data none none = none :=
  load_failure_all_or_nothing "u".data "v".data none none (Or.inl rfl)

/-- C8: a sharing link containing neither the `spreadsheets/d/` nor the
`file/d/` marker resolves to the explicit unresolved result (`none`,
after the user-facing warning) — never a guessed fallback URL, and
without raising. -/
theorem unresolved_link_returns_none (link : Str)
    (h1 : containsSub "spreadsheets/d/".data link = false)
    (h2 : containsSub "file/d/".data link = false) :
    get_gdrive_download_url link = none := by
  unfold get_gdrive_download_url
  rw [h1, h2]
  rfl

/-- C8 witness: a link with neither marker. -/
theorem unresolved_link_returns_none_witness :
    get_gdrive_download_url "https://example.com/x".data = none :=
  unresolved_link_returns_none "https://example.com/x".data (by decide) (by decide)

/-- C9: a zero count maps to the fixed empty-tier color for every
maximum; the maximal count maps to the most saturated tier
`hsl(220, 80%, 40%)`, and 40 is the minimal lightness over all counts
in `[1, max]`, so no attainable tier is darker. -/
theorem get_heatmap_color_spec (count maxCount : Nat)
    (h1 : 1 ≤ count) (h2 : count ≤ maxCount) :
    (∀ m : Nat, get_heatmap_color 0 m = HeatColor.hex "#F3F4F6".data) ∧
    get_heatmap_color maxCount maxCount = HeatColor.hsl 220 80 40 ∧
    (∃ l : ℚ, get_heatmap_color count maxCount = HeatColor.hsl 220 80 l ∧ 40 ≤ l) := by
  have hm0 : ¬ maxCount = 0 := by omega
  have hmQ : (0 : ℚ) < (maxCount : ℚ) := by
    exact_mod_cast Nat.pos_of_ne_zero hm0
  refine ⟨fun m => by simp [get_heatmap_color], ?_, ?_⟩
  · unfold get_heatmap_color
    rw [if_neg hm0, if_neg hm0]
    rw [div_self (ne_of_gt hmQ)]
    norm_num
  · unfold get_heatmap_color
    rw [if_neg (by omega : ¬ count = 0), if_neg hm0]
    refine ⟨_, rfl, ?_⟩
    have hdiv : (count : ℚ) / (maxCount : ℚ) ≤ 1 := by
      rw [div_le_one hmQ]
      exact_mod_cast h2
    linarith

/-- C9 witness: count 2 of maximum 3. -/
theorem get_heatmap_color_spec_witness :
    (∀ m : Nat, get_heatmap_color 0 m = HeatColor.hex "#F3F4F6".data) ∧
    get_heatmap_color 3 3 = HeatColor.hsl 220 80 40 ∧
    (∃ l : ℚ, get_heatmap_color 2 3 = HeatColor.hsl 220 80 l ∧ 40 ≤ l) :=
  get_heatmap_color_spec 2 3 (by decide) (by decide)

/-- C10: when the trimmed collector field contains no `-` separator, the
derived agent id is the whole trimmed field, and the roster anti-join
keeps the row exactly when that whole string is a roster `ID` value. -/
theorem no_separator_collector_id (raw : Str) (ids : List Str)
    (h : ('-' : Char) ∉ stripL raw) :
    deriveCollectorId raw = stripL raw ∧
    (rosterAntiJoinKeeps ids raw = true ↔ stripL raw ∈ ids) := by
  have hid : deriveCollectorId raw = stripL raw := by
    unfold deriveCollectorId
    rw [splitSep_of_not_mem h]
    exact stripL_idem raw
  refine ⟨hid, ?_⟩
  unfold rosterAntiJoinKeeps
  rw [hid]
  exact ⟨of_decide_eq_true, fun hp => decide_eq_true hp⟩

/-- C10 witness: collector field `101` (no separator) against a roster
containing `101`. -/
theorem no_separator_collector_id_witness :
    deriveCollectorId "101".data = stripL "101".data ∧
    (rosterAntiJoinKeeps ["101".data] "101".data = true ↔
      stripL "101".data ∈ ["101".data]) :=
  no_separator_collector_id "101".data ["101".data] (by decide)

end Dashboard
